import Mathlib

/-!
Shallow embedding of the checkout line-item builder of the Pyxelane backend
(`src/server.js`, `/api/create-checkout-session` handler, the authoritative
variant whose `toCents` guards against non-finite and non-positive values).

Modelling conventions:
* JavaScript numbers are modelled as rationals (`ℚ`); the non-finite values
  `NaN`, `Infinity` and `-Infinity` — which the handler treats identically
  (they fail `isFinite` and are rejected by `toCents`) — are collapsed into
  the single constructor `JSNum.nonFinite`.
* Client payload fields carrying prices are modelled after the JavaScript
  `Number(...)` coercion the handler applies to them: a numeric value or
  numeric string becomes `JSNum.num q`, an absent field or unparseable
  string becomes `JSNum.nonFinite`.
* Cart quantities come from a parsed JSON body, so they are finite numbers
  or absent: `Option ℚ`.
* `Math.round` on a non-negative finite number is `⌊x + 1/2⌋` (JavaScript
  rounds half-way cases towards positive infinity).
* The decimal rendering of a JavaScript number inside the thrown error
  message is abstracted as the rational's `toString`.
* The Supabase bulk price query is an external collaborator, modelled as a
  function from the requested id list to either an error (`dbErr`) or a
  list of `{id, price}` rows.
* Stripe session creation is external; the handler's output is modelled as
  the data it hands to Stripe: the line items and the two redirect URLs.
-/

/-- A JavaScript number: either a finite value (as a rational) or one of the
non-finite values (NaN, ±Infinity), which the checkout handler never
distinguishes from one another. -/
inductive JSNum where
  | nonFinite
  | num (q : ℚ)
deriving DecidableEq, Repr

/-- A cart item as parsed from the request JSON body.  `price` is the
client-supplied price after `Number(...)` coercion. -/
structure CartItem where
  id : Option String := none
  name : Option String := none
  title : Option String := none
  price : JSNum := JSNum.nonFinite
  quantity : Option ℚ := none
  image_url : Option String := none
deriving DecidableEq, Repr

/-- A row of the bulk price query `select id, price from products where id in (...)`.
`price` is the stored price after the handler's `Number(r.price)` coercion. -/
structure PriceRow where
  id : String
  price : JSNum
deriving DecidableEq, Repr

/-- The payload of `/api/create-checkout-session`: `req.body` destructured as
`{ cartItems, cart, email }`.  `none` models an absent (undefined) field. -/
structure CheckoutRequest where
  cartItems : Option (List CartItem) := none
  cart : Option (List CartItem) := none
  email : Option String := none
deriving DecidableEq, Repr

/-- A Stripe line item as built by the handler: `price_data.product_data.name`,
`price_data.product_data.images`, `price_data.unit_amount` and `quantity`. -/
structure LineItem where
  name : String
  images : List String
  unit_amount : Int
  quantity : ℚ
deriving DecidableEq, Repr

/-- JavaScript `Math.round` on a finite number: floor of `q + 1/2`
(half-way cases round towards positive infinity). -/
def jsRound (q : ℚ) : Int :=
  (q + 1 / 2).floor

/-- The handler's `toCents`:
`const n = Number(val); if (!isFinite(n) || n <= 0) return 0; return Math.round(n * 100);`. -/
def toCents : JSNum → Int
  | JSNum.nonFinite => 0
  | JSNum.num q => if q ≤ 0 then 0 else jsRound (q * 100)

/-- JavaScript string-or: `a || b` where `a` is a possibly absent string;
the empty string is falsy. -/
def strOrElse (a : Option String) (b : String) : String :=
  match a with
  | some s => if s = "" then b else s
  | none => b

/-- JavaScript truthiness of a possibly absent string. -/
def strTruthy : Option String → Bool
  | some s => s != ""
  | none => false

/-- `item.name || item.title || `Item ${idx + 1}``, with `idx` 0-based. -/
def resolvedName (idx : Nat) (item : CartItem) : String :=
  strOrElse item.name (strOrElse item.title ("Item " ++ toString (idx + 1)))

/-- `item.quantity && item.quantity > 0 ? item.quantity : 1`: an absent or
zero quantity is falsy, a negative one fails the comparison. -/
def resolvedQty (item : CartItem) : ℚ :=
  match item.quantity with
  | some q => if q ≠ 0 ∧ 0 < q then q else 1
  | none => 1

/-- `item.image_url ? [item.image_url] : []` (the empty string is falsy). -/
def resolvedImages (item : CartItem) : List String :=
  match item.image_url with
  | some u => if u = "" then [] else [u]
  | none => []

/-- `item.id && priceById[item.id] != null ? priceById[item.id] : Number(item.price)`:
the authoritative price when the item has a truthy id that is bound in the
price map, otherwise the client-supplied price. -/
def resolvedPrice (priceById : String → Option JSNum) (item : CartItem) : JSNum :=
  match item.id with
  | some s =>
    if s = "" then item.price
    else
      match priceById s with
      | some p => p
      | none => item.price
  | none => item.price

/-- Rendering of a JavaScript number inside the error message (decimal
formatting abstracted as the rational's `toString`). -/
def numRepr : JSNum → String
  | JSNum.nonFinite => "NaN"
  | JSNum.num q => toString q

/-- The thrown message: `Invalid price for item "${productName}". Got ${priceDollars}`. -/
def invalidPriceMsg (name : String) (p : JSNum) : String :=
  "Invalid price for item \"" ++ name ++ "\". Got " ++ numRepr p

/-- One element of the `items.map(...)` body, on the non-throwing path. -/
def mkLineItem (priceById : String → Option JSNum) (idx : Nat) (item : CartItem) : LineItem :=
  { name := resolvedName idx item
    images := resolvedImages item
    unit_amount := toCents (resolvedPrice priceById item)
    quantity := resolvedQty item }

/-- The `items.map((item, idx) => ...)` loop: builds line items in order and
throws (`Except.error`) at the first item whose `toCents` result is falsy. -/
def buildLineItemsAux (priceById : String → Option JSNum) :
    Nat → List CartItem → Except String (List LineItem)
  | _, [] => Except.ok []
  | idx, item :: rest =>
    if toCents (resolvedPrice priceById item) = 0 then
      Except.error (invalidPriceMsg (resolvedName idx item) (resolvedPrice priceById item))
    else
      match buildLineItemsAux priceById (idx + 1) rest with
      | Except.error e => Except.error e
      | Except.ok lis => Except.ok (mkLineItem priceById idx item :: lis)

/-- The full line-item construction, starting at index 0. -/
def buildLineItems (priceById : String → Option JSNum) (items : List CartItem) :
    Except String (List LineItem) :=
  buildLineItemsAux priceById 0 items

/-- `items.map(it => it.id).filter(Boolean)`: the truthy ids, in order. -/
def collectIds (items : List CartItem) : List String :=
  (items.map (fun it => it.id)).filterMap (fun o =>
    match o with
    | some s => if s = "" then none else some s
    | none => none)

/-- `for (const r of rows || []) priceById[r.id] = Number(r.price)`: later rows
overwrite earlier bindings for the same id. -/
def buildPriceMap (rows : List PriceRow) : String → Option JSNum :=
  rows.foldl (fun m r => fun k => if k = r.id then some r.price else m k) (fun _ => none)

/-- The `priceById` map the handler ends up with: empty when there are no
truthy ids (no query is issued) or when the query returns an error
(`if (!dbErr) ...`), otherwise built from the returned rows. -/
def priceMapFor (fetchPrices : List String → Except Unit (List PriceRow))
    (items : List CartItem) : String → Option JSNum :=
  let ids := collectIds items
  if ids.isEmpty then fun _ => none
  else
    match fetchPrices ids with
    | Except.error _ => fun _ => none
    | Except.ok rows => buildPriceMap rows

/-- `email || ""` for a possibly absent email (the empty string is its own
fallback, so absent and empty coincide). -/
def strOrEmpty : Option String → String
  | some s => s
  | none => ""

/-- Template-literal interpolation of a possibly absent id: JavaScript renders
`undefined` as the string "undefined". -/
def idInterp : Option String → String
  | some s => s
  | none => "undefined"

/-- Hexadecimal digit (uppercase), as produced by `encodeURIComponent`. -/
def hexDigit (n : Nat) : Char :=
  if n < 10 then Char.ofNat (48 + n) else Char.ofNat (55 + n)

/-- UTF-8 encoding of a character, as the list of its byte values. -/
def utf8Bytes (c : Char) : List Nat :=
  let n := c.toNat
  if n < 128 then [n]
  else if n < 2048 then [192 + n / 64, 128 + n % 64]
  else if n < 65536 then [224 + n / 4096, 128 + n / 64 % 64, 128 + n % 64]
  else [240 + n / 262144, 128 + n / 4096 % 64, 128 + n / 64 % 64, 128 + n % 64]

/-- The characters `encodeURIComponent` leaves unescaped:
ASCII letters, digits, and `- _ . ! ~ * ' ( )`. -/
def isURIUnescaped (c : Char) : Bool :=
  c.isAlpha || c.isDigit ||
    c = '-' || c = '_' || c = '.' || c = '!' || c = '~' || c = '*' ||
    c = Char.ofNat 39 || c = '(' || c = ')'

/-- Percent-encoding of one byte. -/
def pctEncodeByte (b : Nat) : String :=
  String.singleton '%' ++ String.singleton (hexDigit (b / 16)) ++
    String.singleton (hexDigit (b % 16))

/-- JavaScript `encodeURIComponent`: unescaped characters pass through, every
other character is replaced by the percent-encoding of its UTF-8 bytes. -/
def encodeURIComponent (s : String) : String :=
  String.join (s.data.map (fun c =>
    if isURIUnescaped c then String.singleton c
    else String.join ((utf8Bytes c).map pctEncodeByte)))

/-- The `success_url` template:
`${FRONTEND_URL}/thank-you/${items[0].id}?session_id={CHECKOUT_SESSION_ID}&email=${encodeURIComponent(email || "")}`. -/
def successUrl (frontendUrl : String) (firstId : Option String) (email : Option String) : String :=
  frontendUrl ++ "/thank-you/" ++ idInterp firstId ++
    "?session_id=\x7bCHECKOUT_SESSION_ID\x7d&email=" ++
    encodeURIComponent (strOrEmpty email)

/-- The `cancel_url` template: `${FRONTEND_URL}/cart`. -/
def cancelUrl (frontendUrl : String) : String :=
  frontendUrl ++ "/cart"

/-- Outcome of a `/api/create-checkout-session` request: the 400 "Cart is
empty" rejection, the 500 from the thrown invalid-price error, or the data
handed to Stripe's session creation. -/
inductive CheckoutResult where
  | emptyCart
  | invalidPrice (msg : String)
  | session (line_items : List LineItem) (success_url : String) (cancel_url : String)
deriving DecidableEq, Repr

/-- `cartItems || cart`: any present array — even an empty one — is truthy. -/
def pickItems : Option (List CartItem) → Option (List CartItem) → Option (List CartItem)
  | some l, _ => some l
  | none, c => c

/-- The tail of the handler once a non-empty item list is fixed: an error from
the map aborts with the thrown message, otherwise the session request is
issued with the line items and the two redirect URLs. -/
def finishCheckout (frontendUrl : String) (email : Option String) (items : List CartItem) :
    Except String (List LineItem) → CheckoutResult
  | Except.error msg => CheckoutResult.invalidPrice msg
  | Except.ok lis =>
    CheckoutResult.session lis
      (successUrl frontendUrl
        (match items with
         | it :: _ => it.id
         | [] => none)
        email)
      (cancelUrl frontendUrl)

/-- The `/api/create-checkout-session` handler.  `fetchPrices` is the Supabase
bulk price query (consulted only when there are truthy ids), `frontendUrl`
the configured frontend base. -/
def createCheckoutSession (fetchPrices : List String → Except Unit (List PriceRow))
    (frontendUrl : String) (req : CheckoutRequest) : CheckoutResult :=
  match pickItems req.cartItems req.cart with
  | none => CheckoutResult.emptyCart
  | some items =>
    if items.isEmpty then CheckoutResult.emptyCart
    else
      finishCheckout frontendUrl req.email items
        (buildLineItems (priceMapFor fetchPrices items) items)

/-- The list of line items produced on the non-throwing path, starting at a
given index. -/
def buildOk (pb : String → Option JSNum) : Nat → List CartItem → List LineItem
  | _, [] => []
  | idx, item :: rest => mkLineItem pb idx item :: buildOk pb (idx + 1) rest

/-- The model's rounding agrees with the mathematical floor of `q + 1/2`. -/
theorem jsRound_eq (q : ℚ) : jsRound q = ⌊q + 1 / 2⌋ := by
  unfold jsRound
  rw [Rat.floor_def']
  exact Rat.floor_def.symm

/-- `toCents` never returns a negative amount. -/
theorem toCents_nonneg (p : JSNum) : 0 ≤ toCents p := by
  cases p with
  | nonFinite => simp [toCents]
  | num q =>
    simp only [toCents]
    by_cases h : q ≤ 0
    · rw [if_pos h]
    · rw [if_neg h, jsRound_eq]
      apply Int.floor_nonneg.mpr
      push_neg at h
      nlinarith

/-- On a positive finite input, `toCents` is the rounded minor-unit amount. -/
theorem toCents_pos_input (q : ℚ) (h : 0 < q) :
    toCents (JSNum.num q) = jsRound (q * 100) := by
  simp only [toCents]
  rw [if_neg (not_le.mpr h)]

/-- A successful run of the item loop yields exactly the `buildOk` list. -/
theorem buildAux_ok_eq (pb : String → Option JSNum) (items : List CartItem) :
    ∀ (idx : Nat) (lis : List LineItem),
      buildLineItemsAux pb idx items = Except.ok lis → lis = buildOk pb idx items := by
  induction items with
  | nil =>
    intro idx lis h
    simp only [buildLineItemsAux] at h
    cases h
    rfl
  | cons item rest ih =>
    intro idx lis h
    simp only [buildLineItemsAux] at h
    by_cases hc : toCents (resolvedPrice pb item) = 0
    · rw [if_pos hc] at h
      cases h
    · rw [if_neg hc] at h
      cases hrec : buildLineItemsAux pb (idx + 1) rest with
      | error e => rw [hrec] at h; cases h
      | ok lis' =>
        rw [hrec] at h
        cases h
        rw [ih (idx + 1) lis' hrec]
        rfl

/-- `buildOk` preserves the length of the cart. -/
theorem buildOk_length (pb : String → Option JSNum) (items : List CartItem) :
    ∀ idx : Nat, (buildOk pb idx items).length = items.length := by
  induction items with
  | nil => intro idx; rfl
  | cons item rest ih =>
    intro idx
    simp only [buildOk, List.length_cons]
    rw [ih (idx + 1)]

/-- The `k`-th element of `buildOk` is the line item built from the `k`-th
cart item at absolute index `idx + k`. -/
theorem buildOk_get (pb : String → Option JSNum) (items : List CartItem) :
    ∀ (idx k : Nat) (hk : k < items.length) (hk2 : k < (buildOk pb idx items).length),
      (buildOk pb idx items).get ⟨k, hk2⟩ = mkLineItem pb (idx + k) (items.get ⟨k, hk⟩) := by
  induction items with
  | nil =>
    intro idx k hk
    exact absurd hk (Nat.not_lt_zero k)
  | cons item rest ih =>
    intro idx k hk hk2
    cases k with
    | zero => rfl
    | succ k' =>
      have hk' : k' < rest.length := Nat.lt_of_succ_lt_succ hk
      have hk2' : k' < (buildOk pb (idx + 1) rest).length := by
        rw [buildOk_length]; exact hk'
      have := ih (idx + 1) k' hk' hk2'
      simp only [buildOk, List.get_cons_succ]
      rw [this]
      congr 1
      omega

/-- Every line item of a successful run has a nonzero amount (the loop throws
on falsy `cents`) and hence, by `toCents_nonneg`, a positive one. -/
theorem buildAux_ok_pos (pb : String → Option JSNum) (items : List CartItem) :
    ∀ (idx : Nat) (lis : List LineItem),
      buildLineItemsAux pb idx items = Except.ok lis →
      ∀ li ∈ lis, 0 < li.unit_amount := by
  induction items with
  | nil =>
    intro idx lis h li hli
    simp only [buildLineItemsAux] at h
    cases h
    cases hli
  | cons item rest ih =>
    intro idx lis h li hli
    simp only [buildLineItemsAux] at h
    by_cases hc : toCents (resolvedPrice pb item) = 0
    · rw [if_pos hc] at h; cases h
    · rw [if_neg hc] at h
      cases hrec : buildLineItemsAux pb (idx + 1) rest with
      | error e => rw [hrec] at h; cases h
      | ok lis' =>
        rw [hrec] at h
        cases h
        cases hli with
        | head =>
          have h0 : (mkLineItem pb idx item).unit_amount =
              toCents (resolvedPrice pb item) := rfl
          rw [h0]
          exact lt_of_le_of_ne (toCents_nonneg _) (fun he => hc he.symm)
        | tail _ hmem => exact ih (idx + 1) lis' hrec li hmem

/-- If some item's `toCents` is zero, the loop throws, and the thrown message
is the one built from such an item (the first offending one). -/
theorem buildAux_error_of_exists (pb : String → Option JSNum) (items : List CartItem) :
    ∀ idx : Nat, (∃ item ∈ items, toCents (resolvedPrice pb item) = 0) →
      ∃ (j : Nat) (hj : j < items.length),
        toCents (resolvedPrice pb (items.get ⟨j, hj⟩)) = 0 ∧
        buildLineItemsAux pb idx items =
          Except.error (invalidPriceMsg (resolvedName (idx + j) (items.get ⟨j, hj⟩))
            (resolvedPrice pb (items.get ⟨j, hj⟩))) := by
  induction items with
  | nil =>
    intro idx h
    obtain ⟨item, hmem, _⟩ := h
    cases hmem
  | cons item rest ih =>
    intro idx h
    by_cases hc : toCents (resolvedPrice pb item) = 0
    · refine ⟨0, Nat.succ_pos _, hc, ?_⟩
      simp only [buildLineItemsAux]
      rw [if_pos hc]
      rfl
    · obtain ⟨item', hmem', hz'⟩ := h
      have hmem'' : item' ∈ rest := by
        cases hmem' with
        | head => exact absurd hz' hc
        | tail _ hr => exact hr
      obtain ⟨j, hj, hz, herr⟩ := ih (idx + 1) ⟨item', hmem'', hz'⟩
      refine ⟨j + 1, Nat.succ_lt_succ hj, hz, ?_⟩
      simp only [buildLineItemsAux]
      rw [if_neg hc, herr]
      have h1 : idx + 1 + j = idx + (j + 1) := by omega
      rw [h1]
      rfl

/-- Unfolding of the handler once a non-empty item list has been selected. -/
theorem create_eq_finish (fetchPrices : List String → Except Unit (List PriceRow))
    (frontendUrl : String) (req : CheckoutRequest) (items : List CartItem)
    (hp : pickItems req.cartItems req.cart = some items) (hne : items ≠ []) :
    createCheckoutSession fetchPrices frontendUrl req =
      finishCheckout frontendUrl req.email items
        (buildLineItems (priceMapFor fetchPrices items) items) := by
  unfold createCheckoutSession
  rw [hp]
  cases items with
  | nil => exact absurd rfl hne
  | cons a l => rfl

/-- Inversion: a session outcome pins down the successful line-item build and
both redirect URLs. -/
theorem session_inv (fetchPrices : List String → Except Unit (List PriceRow))
    (frontendUrl : String) (req : CheckoutRequest) (items : List CartItem)
    (lis : List LineItem) (su cu : String)
    (hp : pickItems req.cartItems req.cart = some items)
    (hres : createCheckoutSession fetchPrices frontendUrl req =
      CheckoutResult.session lis su cu) :
    buildLineItems (priceMapFor fetchPrices items) items = Except.ok lis ∧
    su = successUrl frontendUrl
      (match items with
       | it :: _ => it.id
       | [] => none) req.email ∧
    cu = cancelUrl frontendUrl := by
  unfold createCheckoutSession at hres
  rw [hp] at hres
  cases items with
  | nil => cases hres
  | cons a l =>
    simp only [List.isEmpty_cons, if_false] at hres
    unfold finishCheckout at hres
    cases hb : buildLineItems (priceMapFor fetchPrices (a :: l)) (a :: l) with
    | error e => rw [hb] at hres; cases hres
    | ok lis' =>
      rw [hb] at hres
      cases hres
      exact ⟨rfl, rfl, rfl⟩

example : jsRound 1999 = 1999 := by with_unfolding_all rfl
example : jsRound (1/2) = 1 := by with_unfolding_all rfl
example : jsRound (-1/2) = 0 := by with_unfolding_all rfl
example : toCents (JSNum.num (1999/100)) = 1999 := by with_unfolding_all rfl
example : toCents (JSNum.num (1/250)) = 0 := by with_unfolding_all rfl
example : encodeURIComponent "a@b.c" = "a%40b.c" := by decide

/-- A falsy optional string makes `strOrElse` fall through to its default. -/
theorem strOrElse_falsy (a : Option String) (b : String) (h : strTruthy a = false) :
    strOrElse a b = b := by
  cases a with
  | none => rfl
  | some s =>
    have h' : s = "" := by
      simpa [strTruthy] using h
    simp only [strOrElse]
    rw [if_pos h']

/-- A truthy string wins in `strOrElse`. -/
theorem strOrElse_truthy (s : String) (b : String) (hs : s ≠ "") :
    strOrElse (some s) b = s := by
  simp only [strOrElse]
  rw [if_neg hs]

/-- With an empty price map every item resolves to its client-supplied price. -/
theorem resolvedPrice_emptyMap (item : CartItem) :
    resolvedPrice (fun _ => none) item = item.price := by
  obtain ⟨id, name, title, price, qty, img⟩ := item
  cases id with
  | none => rfl
  | some s =>
    by_cases hs : s = ""
    · simp only [resolvedPrice]
      rw [if_pos hs]
    · simp only [resolvedPrice]
      rw [if_neg hs]

/-- An absent quantity defaults to 1. -/
theorem resolvedQty_none (item : CartItem) (h : item.quantity = none) :
    resolvedQty item = 1 := by
  simp only [resolvedQty, h]

/-- A zero or negative quantity defaults to 1. -/
theorem resolvedQty_nonpos (item : CartItem) (q : ℚ) (h : item.quantity = some q)
    (hq : q ≤ 0) : resolvedQty item = 1 := by
  simp only [resolvedQty, h]
  rw [if_neg]
  rintro ⟨-, h2⟩
  exact absurd h2 (not_lt.mpr hq)

/-- A positive quantity passes through unchanged. -/
theorem resolvedQty_pos (item : CartItem) (q : ℚ) (h : item.quantity = some q)
    (hq : 0 < q) : resolvedQty item = q := by
  simp only [resolvedQty, h]
  rw [if_pos ⟨ne_of_gt hq, hq⟩]

/-- `toCents` is zero (the loop's rejection condition) exactly when the input
is not a finite number whose rounded minor-unit amount is positive. -/
theorem toCents_eq_zero_iff (p : JSNum) :
    toCents p = 0 ↔ ¬ ∃ q : ℚ, p = JSNum.num q ∧ 0 < jsRound (q * 100) := by
  cases p with
  | nonFinite =>
    simp only [toCents, true_iff]
    rintro ⟨q, hq, -⟩
    cases hq
  | num q =>
    simp only [toCents]
    by_cases h : q ≤ 0
    · rw [if_pos h]
      have hle : jsRound (q * 100) ≤ 0 := by
        rw [jsRound_eq]
        have h2 : q * 100 + 1 / 2 ≤ (1 : ℚ) / 2 := by nlinarith
        have h3 := Int.floor_mono h2
        have h0 : ⌊(1 : ℚ) / 2⌋ = 0 := by
          rw [Int.floor_eq_zero_iff]
          constructor
          · norm_num
          · norm_num
        rw [h0] at h3
        exact h3
      constructor
      · rintro - ⟨q', hq', hpos⟩
        cases hq'
        exact absurd hpos (not_lt.mpr hle)
      · intro _
        rfl
    · rw [if_neg h]
      push_neg at h
      constructor
      · rintro hz ⟨q', hq', hpos⟩
        cases hq'
        rw [hz] at hpos
        exact absurd hpos (lt_irrefl 0)
      · intro hne
        by_contra hnz
        apply hne
        refine ⟨q, rfl, ?_⟩
        have hnn : 0 ≤ jsRound (q * 100) := by
          rw [jsRound_eq]
          apply Int.floor_nonneg.mpr
          nlinarith
        exact lt_of_le_of_ne hnn (Ne.symm hnz)

/-- The item loop on a one-item cart: either the rejection or one line item. -/
theorem buildLineItems_singleton (pb : String → Option JSNum) (item : CartItem) :
    buildLineItems pb [item] =
      (if toCents (resolvedPrice pb item) = 0 then
        Except.error (invalidPriceMsg (resolvedName 0 item) (resolvedPrice pb item))
      else Except.ok [mkLineItem pb 0 item]) := by
  unfold buildLineItems buildLineItemsAux
  by_cases h : toCents (resolvedPrice pb item) = 0
  · rw [if_pos h, if_pos h]
  · rw [if_neg h, if_neg h]
    rfl

/-- Concrete cart item used by the witnesses: id found in the price store. -/
def wItem : CartItem :=
  { id := some "p1", title := some "Widget", price := JSNum.num 5, quantity := some 2 }

/-- Concrete price store: "p1" priced at 19.99. -/
def wFetch : List String → Except Unit (List PriceRow) :=
  fun _ => Except.ok [{ id := "p1", price := JSNum.num (1999/100) }]

/-- Concrete request carrying the single item `wItem` under `cartItems`. -/
def wReq : CheckoutRequest := { cartItems := some [wItem] }

/-- The line items the handler produces for `wReq` against `wFetch`. -/
def wLis : List LineItem :=
  [{ name := "Widget", images := [], unit_amount := 1999, quantity := 2 }]

/-- Concrete cart item with a zero price and no id (the spec's "Mystery"
example has price "0", which `Number` coerces to 0). -/
def wZeroItem : CartItem :=
  { title := some "Mystery", price := JSNum.num 0, quantity := some 1 }

/-- Concrete request carrying the zero-priced item. -/
def wZeroReq : CheckoutRequest := { cartItems := some [wZeroItem] }

/-- Concrete price store with no rows. -/
def wFetchEmpty : List String → Except Unit (List PriceRow) :=
  fun _ => Except.ok []

/-- Base frontend address used by the witnesses. -/
def wUrl : String := "http://localhost:5173"

/-- C1: For every cart in which every item's id is present in the Price Store,
each output LineItem's unit_amount equals round(authoritative_price × 100),
independent of the client-supplied price on that item (the conclusion
mentions only the authoritative price `auth`). -/
theorem unit_amount_from_price_store
    (fetchPrices : List String → Except Unit (List PriceRow))
    (frontendUrl : String) (req : CheckoutRequest) (items : List CartItem)
    (auth : CartItem → ℚ)
    (hp : pickItems req.cartItems req.cart = some items)
    (hauth : ∀ item ∈ items, ∃ s, item.id = some s ∧ s ≠ "" ∧
      priceMapFor fetchPrices items s = some (JSNum.num (auth item)))
    (lis : List LineItem) (su cu : String)
    (hres : createCheckoutSession fetchPrices frontendUrl req =
      CheckoutResult.session lis su cu) :
    ∀ (k : Nat) (hk : k < items.length) (hk2 : k < lis.length),
      (lis.get ⟨k, hk2⟩).unit_amount =
        jsRound (auth (items.get ⟨k, hk⟩) * 100) := by
  obtain ⟨hb, -, -⟩ := session_inv fetchPrices frontendUrl req items lis su cu hp hres
  intro k hk hk2
  have heq := buildAux_ok_eq (priceMapFor fetchPrices items) items 0 lis hb
  subst heq
  obtain ⟨s, hid, hs, hmap⟩ := hauth (items.get ⟨k, hk⟩) (items.get_mem k hk)
  have hrp : resolvedPrice (priceMapFor fetchPrices items) (items.get ⟨k, hk⟩) =
      JSNum.num (auth (items.get ⟨k, hk⟩)) := by
    simp only [resolvedPrice, hid, if_neg hs, hmap]
  rw [buildOk_get (priceMapFor fetchPrices items) items 0 k hk hk2]
  have hu : (mkLineItem (priceMapFor fetchPrices items) (0 + k) (items.get ⟨k, hk⟩)).unit_amount =
      toCents (resolvedPrice (priceMapFor fetchPrices items) (items.get ⟨k, hk⟩)) := rfl
  rw [hu, hrp]
  by_cases hq : 0 < auth (items.get ⟨k, hk⟩)
  · exact toCents_pos_input _ hq
  · exfalso
    have hpos := buildAux_ok_pos (priceMapFor fetchPrices items) items 0 _ hb
      ((buildOk (priceMapFor fetchPrices items) 0 items).get ⟨k, hk2⟩) (List.get_mem _ _ _)
    rw [buildOk_get (priceMapFor fetchPrices items) items 0 k hk hk2, hu, hrp] at hpos
    have hz : toCents (JSNum.num (auth (items.get ⟨k, hk⟩))) = 0 := by
      simp only [toCents]
      rw [if_pos (not_lt.mp hq)]
    rw [hz] at hpos
    exact absurd hpos (lt_irrefl 0)

/-- Witness for C1 at the concrete cart `wReq` against the store `wFetch`:
the emitted unit amount is round(19.99 × 100). -/
theorem unit_amount_from_price_store_witness :
    (wLis.get ⟨0, by decide⟩).unit_amount =
      jsRound ((fun _ : CartItem => (1999 : ℚ)/100) ([wItem].get ⟨0, by decide⟩) * 100) :=
  unit_amount_from_price_store wFetch "http://localhost:5173" wReq [wItem]
    (fun _ => 1999/100) rfl
    (by
      intro item hmem
      refine ⟨"p1", ?_, ?_, ?_⟩
      · cases hmem with
        | head => rfl
        | tail _ h => cases h
      · decide
      · cases hmem with
        | head => with_unfolding_all rfl
        | tail _ h => cases h)
    wLis (successUrl "http://localhost:5173" (some "p1") none)
    (cancelUrl "http://localhost:5173")
    (by with_unfolding_all rfl)
    0 (by decide) (by decide)

/-- C2: a cart containing an item whose resolved price is zero or negative is
rejected as a whole batch: the outcome is the thrown invalid-price error (a
`CheckoutResult.invalidPrice`, so no line items are emitted and no session
request is issued), and the error message is built from the display name of
an item whose `toCents` is zero. -/
theorem batch_rejected_on_nonpositive_price
    (fetchPrices : List String → Except Unit (List PriceRow))
    (frontendUrl : String) (req : CheckoutRequest) (items : List CartItem)
    (hp : pickItems req.cartItems req.cart = some items)
    (hbad : ∃ item ∈ items, ∃ q : ℚ,
      resolvedPrice (priceMapFor fetchPrices items) item = JSNum.num q ∧ q ≤ 0) :
    ∃ (j : Nat) (hj : j < items.length),
      toCents (resolvedPrice (priceMapFor fetchPrices items) (items.get ⟨j, hj⟩)) = 0 ∧
      createCheckoutSession fetchPrices frontendUrl req =
        CheckoutResult.invalidPrice
          (invalidPriceMsg (resolvedName j (items.get ⟨j, hj⟩))
            (resolvedPrice (priceMapFor fetchPrices items) (items.get ⟨j, hj⟩))) := by
  obtain ⟨item, hmem, q, hq, hq0⟩ := hbad
  have hne : items ≠ [] := by
    intro h
    rw [h] at hmem
    cases hmem
  have hex : ∃ it ∈ items, toCents (resolvedPrice (priceMapFor fetchPrices items) it) = 0 := by
    refine ⟨item, hmem, ?_⟩
    rw [hq]
    simp only [toCents]
    rw [if_pos hq0]
  obtain ⟨j, hj, hz, herr⟩ :=
    buildAux_error_of_exists (priceMapFor fetchPrices items) items 0 hex
  refine ⟨j, hj, hz, ?_⟩
  rw [create_eq_finish fetchPrices frontendUrl req items hp hne]
  unfold buildLineItems
  rw [herr]
  simp only [finishCheckout, Nat.zero_add]

/-- Witness for C2: the one-item cart with zero-priced "Mystery" is rejected
and the error message names it. -/
theorem batch_rejected_on_nonpositive_price_witness :
    ∃ (j : Nat) (hj : j < ([wZeroItem] : List CartItem).length),
      toCents (resolvedPrice (priceMapFor wFetchEmpty [wZeroItem])
        (([wZeroItem] : List CartItem).get ⟨j, hj⟩)) = 0 ∧
      createCheckoutSession wFetchEmpty wUrl wZeroReq =
        CheckoutResult.invalidPrice
          (invalidPriceMsg (resolvedName j (([wZeroItem] : List CartItem).get ⟨j, hj⟩))
            (resolvedPrice (priceMapFor wFetchEmpty [wZeroItem])
              (([wZeroItem] : List CartItem).get ⟨j, hj⟩))) :=
  batch_rejected_on_nonpositive_price wFetchEmpty wUrl wZeroReq [wZeroItem] rfl
    ⟨wZeroItem, List.mem_cons_self _ _, 0, rfl, le_refl 0⟩

/-- C3: whenever the handler succeeds in issuing a session request, every
emitted line item carries a positive integer `unit_amount` (integrality and
finiteness are structural: the model's `unit_amount` is an `Int`). -/
theorem success_line_items_positive
    (fetchPrices : List String → Except Unit (List PriceRow))
    (frontendUrl : String) (req : CheckoutRequest)
    (lis : List LineItem) (su cu : String)
    (hres : createCheckoutSession fetchPrices frontendUrl req =
      CheckoutResult.session lis su cu) :
    ∀ li ∈ lis, 0 < li.unit_amount := by
  cases hpi : pickItems req.cartItems req.cart with
  | none =>
    unfold createCheckoutSession at hres
    rw [hpi] at hres
    cases hres
  | some items =>
    obtain ⟨hb, -, -⟩ :=
      session_inv fetchPrices frontendUrl req items lis su cu hpi hres
    exact buildAux_ok_pos (priceMapFor fetchPrices items) items 0 lis hb

/-- Witness for C3 at the concrete successful checkout of `wReq`. -/
theorem success_line_items_positive_witness :
    0 < (wLis.get ⟨0, by decide⟩).unit_amount :=
  success_line_items_positive wFetch wUrl wReq wLis
    (successUrl wUrl (some "p1") none) (cancelUrl wUrl)
    (by with_unfolding_all rfl)
    (wLis.get ⟨0, by decide⟩) (List.get_mem _ _ _)

/-- On a successful checkout, the `k`-th line item is exactly the one built
from the `k`-th cart item, at its original 0-based position. -/
theorem session_get (fetchPrices : List String → Except Unit (List PriceRow))
    (frontendUrl : String) (req : CheckoutRequest) (items : List CartItem)
    (lis : List LineItem) (su cu : String)
    (hp : pickItems req.cartItems req.cart = some items)
    (hres : createCheckoutSession fetchPrices frontendUrl req =
      CheckoutResult.session lis su cu)
    (k : Nat) (hk : k < items.length) (hk2 : k < lis.length) :
    lis.get ⟨k, hk2⟩ =
      mkLineItem (priceMapFor fetchPrices items) k (items.get ⟨k, hk⟩) := by
  obtain ⟨hb, -, -⟩ := session_inv fetchPrices frontendUrl req items lis su cu hp hres
  have heq := buildAux_ok_eq (priceMapFor fetchPrices items) items 0 lis hb
  subst heq
  rw [buildOk_get (priceMapFor fetchPrices items) items 0 k hk hk2, Nat.zero_add]

/-- C4: when the bulk price lookup errors, the handler does not abort on that
account: it proceeds exactly as with an empty price map, so every item's
resolved price falls back to the client-supplied (Number-coerced) price. -/
theorem fallback_to_client_price_on_fetch_error
    (fetchPrices : List String → Except Unit (List PriceRow))
    (frontendUrl : String) (req : CheckoutRequest) (items : List CartItem)
    (hp : pickItems req.cartItems req.cart = some items)
    (hne : items ≠ [])
    (herr : fetchPrices (collectIds items) = Except.error ()) :
    (∀ item ∈ items, resolvedPrice (priceMapFor fetchPrices items) item = item.price) ∧
    createCheckoutSession fetchPrices frontendUrl req =
      finishCheckout frontendUrl req.email items
        (buildLineItems (fun _ => none) items) := by
  have hpm : priceMapFor fetchPrices items = fun _ => none := by
    simp only [priceMapFor]
    by_cases hids : (collectIds items).isEmpty
    · rw [if_pos hids]
    · rw [if_neg hids, herr]
  constructor
  · intro item hmem
    rw [hpm]
    exact resolvedPrice_emptyMap item
  · rw [create_eq_finish fetchPrices frontendUrl req items hp hne, hpm]

/-- Concrete failing price store. -/
def wErrFetch : List String → Except Unit (List PriceRow) :=
  fun _ => Except.error ()

/-- Witness for C4: with the store unreachable, `wItem` keeps its client
price and the request is still processed to completion. -/
theorem fallback_to_client_price_on_fetch_error_witness :
    resolvedPrice (priceMapFor wErrFetch [wItem]) wItem = wItem.price ∧
    createCheckoutSession wErrFetch wUrl wReq =
      finishCheckout wUrl none [wItem] (buildLineItems (fun _ => none) [wItem]) :=
  ⟨(fallback_to_client_price_on_fetch_error wErrFetch wUrl wReq [wItem]
      rfl (List.cons_ne_nil _ _) rfl).1 wItem (List.mem_cons_self _ _),
   (fallback_to_client_price_on_fetch_error wErrFetch wUrl wReq [wItem]
      rfl (List.cons_ne_nil _ _) rfl).2⟩

/-- C5: on a successful checkout the display name of the `k`-th line item
follows the precedence name, then title, then the placeholder "Item N" with
N the 1-based position ("present" being JavaScript truthiness: a non-empty
string). -/
theorem display_name_precedence
    (fetchPrices : List String → Except Unit (List PriceRow))
    (frontendUrl : String) (req : CheckoutRequest) (items : List CartItem)
    (lis : List LineItem) (su cu : String)
    (hp : pickItems req.cartItems req.cart = some items)
    (hres : createCheckoutSession fetchPrices frontendUrl req =
      CheckoutResult.session lis su cu) :
    ∀ (k : Nat) (hk : k < items.length) (hk2 : k < lis.length),
      (∀ s, (items.get ⟨k, hk⟩).name = some s → s ≠ "" →
        (lis.get ⟨k, hk2⟩).name = s) ∧
      (strTruthy (items.get ⟨k, hk⟩).name = false →
        ∀ t, (items.get ⟨k, hk⟩).title = some t → t ≠ "" →
          (lis.get ⟨k, hk2⟩).name = t) ∧
      (strTruthy (items.get ⟨k, hk⟩).name = false →
        strTruthy (items.get ⟨k, hk⟩).title = false →
          (lis.get ⟨k, hk2⟩).name = "Item " ++ toString (k + 1)) := by
  intro k hk hk2
  rw [session_get fetchPrices frontendUrl req items lis su cu hp hres k hk hk2]
  refine ⟨?_, ?_, ?_⟩
  · intro s hs hns
    show resolvedName k (items.get ⟨k, hk⟩) = s
    unfold resolvedName
    rw [hs]
    exact strOrElse_truthy s _ hns
  · intro hn t ht hnt
    show resolvedName k (items.get ⟨k, hk⟩) = t
    unfold resolvedName
    rw [strOrElse_falsy _ _ hn, ht]
    exact strOrElse_truthy t _ hnt
  · intro hn ht
    show resolvedName k (items.get ⟨k, hk⟩) = "Item " ++ toString (k + 1)
    unfold resolvedName
    rw [strOrElse_falsy _ _ hn, strOrElse_falsy _ _ ht]

/-- Witness for C5: `wItem` has no name and title "Widget", so the emitted
line item is named "Widget". -/
theorem display_name_precedence_witness :
    (wLis.get ⟨0, by decide⟩).name = "Widget" :=
  (display_name_precedence wFetch wUrl wReq [wItem] wLis
      (successUrl wUrl (some "p1") none) (cancelUrl wUrl) rfl
      (by with_unfolding_all rfl) 0 (by decide) (by decide)).2.1
    rfl "Widget" rfl (by decide)

/-- C6: on a successful checkout the `k`-th line item's quantity is 1 when the
cart item's quantity is missing, zero or negative, and the cart item's own
quantity when it is positive. -/
theorem quantity_defaulting
    (fetchPrices : List String → Except Unit (List PriceRow))
    (frontendUrl : String) (req : CheckoutRequest) (items : List CartItem)
    (lis : List LineItem) (su cu : String)
    (hp : pickItems req.cartItems req.cart = some items)
    (hres : createCheckoutSession fetchPrices frontendUrl req =
      CheckoutResult.session lis su cu) :
    ∀ (k : Nat) (hk : k < items.length) (hk2 : k < lis.length),
      ((items.get ⟨k, hk⟩).quantity = none → (lis.get ⟨k, hk2⟩).quantity = 1) ∧
      (∀ q : ℚ, (items.get ⟨k, hk⟩).quantity = some q → q ≤ 0 →
        (lis.get ⟨k, hk2⟩).quantity = 1) ∧
      (∀ q : ℚ, (items.get ⟨k, hk⟩).quantity = some q → 0 < q →
        (lis.get ⟨k, hk2⟩).quantity = q) := by
  intro k hk hk2
  rw [session_get fetchPrices frontendUrl req items lis su cu hp hres k hk hk2]
  refine ⟨?_, ?_, ?_⟩
  · intro h
    exact resolvedQty_none _ h
  · intro q h hq
    exact resolvedQty_nonpos _ q h hq
  · intro q h hq
    exact resolvedQty_pos _ q h hq

/-- Witness for C6: `wItem` has quantity 2, which passes through unchanged. -/
theorem quantity_defaulting_witness :
    (wLis.get ⟨0, by decide⟩).quantity = 2 :=
  (quantity_defaulting wFetch wUrl wReq [wItem] wLis
      (successUrl wUrl (some "p1") none) (cancelUrl wUrl) rfl
      (by with_unfolding_all rfl) 0 (by decide) (by decide)).2.2
    2 rfl (by norm_num)

/-- C7: an absent or empty cart is rejected up front, uniformly in the price
store (the outcome does not depend on `fetchPrices`, which formalises that
no price lookup takes place), and no session outcome is produced. -/
theorem empty_cart_rejected (req : CheckoutRequest)
    (h : pickItems req.cartItems req.cart = none ∨
      pickItems req.cartItems req.cart = some []) :
    ∀ (fetchPrices : List String → Except Unit (List PriceRow)) (frontendUrl : String),
      createCheckoutSession fetchPrices frontendUrl req = CheckoutResult.emptyCart := by
  intro fetchPrices frontendUrl
  unfold createCheckoutSession
  cases h with
  | inl h0 => rw [h0]
  | inr h0 =>
    rw [h0]
    rfl

/-- Witness for C7: the request with neither `cartItems` nor `cart` is
rejected as an empty cart. -/
theorem empty_cart_rejected_witness :
    createCheckoutSession wFetchEmpty wUrl { } = CheckoutResult.emptyCart :=
  empty_cart_rejected { } (Or.inl rfl) wFetchEmpty wUrl

/-- C8: on a successful checkout whose first cart item carries an id, the
success redirect is exactly the frontend base followed by
/thank-you/(first item id)?session_id=(placeholder)&email=(URL-encoded
buyer email), and the cancel redirect is the frontend base followed by
/cart. -/
theorem redirect_urls
    (fetchPrices : List String → Except Unit (List PriceRow))
    (frontendUrl : String) (req : CheckoutRequest)
    (item0 : CartItem) (rest : List CartItem) (i : String)
    (hp : pickItems req.cartItems req.cart = some (item0 :: rest))
    (hid : item0.id = some i)
    (lis : List LineItem) (su cu : String)
    (hres : createCheckoutSession fetchPrices frontendUrl req =
      CheckoutResult.session lis su cu) :
    su = frontendUrl ++ "/thank-you/" ++ i ++
        "?session_id=\x7bCHECKOUT_SESSION_ID\x7d&email=" ++
        encodeURIComponent (strOrEmpty req.email) ∧
    cu = frontendUrl ++ "/cart" := by
  obtain ⟨-, hsu, hcu⟩ :=
    session_inv fetchPrices frontendUrl req (item0 :: rest) lis su cu hp hres
  constructor
  · rw [hsu]
    simp only [successUrl, idInterp, hid]
  · rw [hcu]
    rfl

/-- Concrete request with a buyer email that needs URL-escaping. -/
def wMailReq : CheckoutRequest :=
  { cartItems := some [wItem], email := some "a@b.c" }

/-- Witness for C8: checking out `wMailReq` yields exactly the templated
redirect targets, with "a@b.c" escaped to "a%40b.c". -/
theorem redirect_urls_witness :
    "http://localhost:5173/thank-you/p1?session_id=\x7bCHECKOUT_SESSION_ID\x7d&email=a%40b.c" =
      wUrl ++ "/thank-you/" ++ "p1" ++
        "?session_id=\x7bCHECKOUT_SESSION_ID\x7d&email=" ++
        encodeURIComponent (strOrEmpty wMailReq.email) ∧
    "http://localhost:5173/cart" = wUrl ++ "/cart" :=
  redirect_urls wFetch wUrl wMailReq wItem [] "p1" rfl rfl wLis
    "http://localhost:5173/thank-you/p1?session_id=\x7bCHECKOUT_SESSION_ID\x7d&email=a%40b.c"
    "http://localhost:5173/cart"
    (by with_unfolding_all rfl)

/-- C9: a one-item cart is rejected exactly when the item's resolved price is
not a finite number whose rounded minor-unit amount is positive; in
particular the strictly positive price 0.004 (below half a cent) is
rejected. -/
theorem rejected_iff_rounded_amount_not_positive :
    (∀ (pb : String → Option JSNum) (item : CartItem),
      (∃ e, buildLineItems pb [item] = Except.error e) ↔
        ¬ ∃ q : ℚ, resolvedPrice pb item = JSNum.num q ∧ 0 < jsRound (q * 100)) ∧
    createCheckoutSession wFetchEmpty wUrl
      { cartItems := some [{ title := some "Tiny", price := JSNum.num (1/250),
                             quantity := some 1 }] } =
      CheckoutResult.invalidPrice (invalidPriceMsg "Tiny" (JSNum.num (1/250))) := by
  constructor
  · intro pb item
    have hiff : (∃ e, buildLineItems pb [item] = Except.error e) ↔
        toCents (resolvedPrice pb item) = 0 := by
      constructor
      · rintro ⟨e, he⟩
        by_contra hz
        rw [buildLineItems_singleton, if_neg hz] at he
        cases he
      · intro hz
        refine ⟨invalidPriceMsg (resolvedName 0 item) (resolvedPrice pb item), ?_⟩
        rw [buildLineItems_singleton, if_pos hz]
    exact hiff.trans (toCents_eq_zero_iff _)
  · with_unfolding_all rfl

/-- C10: the cart is read from `cartItems` when that key is present — `cart`
is then ignored entirely — and from `cart` when `cartItems` is absent, with
identical processing either way. -/
theorem cart_key_precedence :
    (∀ (fetchPrices : List String → Except Unit (List PriceRow))
       (frontendUrl : String) (l : List CartItem)
       (c c' : Option (List CartItem)) (e : Option String),
      createCheckoutSession fetchPrices frontendUrl
          { cartItems := some l, cart := c, email := e } =
        createCheckoutSession fetchPrices frontendUrl
          { cartItems := some l, cart := c', email := e }) ∧
    (∀ (fetchPrices : List String → Except Unit (List PriceRow))
       (frontendUrl : String) (c : List CartItem) (e : Option String),
      createCheckoutSession fetchPrices frontendUrl
          { cartItems := none, cart := some c, email := e } =
        createCheckoutSession fetchPrices frontendUrl
          { cartItems := some c, cart := none, email := e }) := by
  constructor
  · intro fetchPrices frontendUrl l c c' e
    rfl
  · intro fetchPrices frontendUrl c e
    rfl
